import Mathlib

/-!
Verification of the MessMeter backend rating-aggregation, directory and
scheduling logic.  All numeric fields are modelled over the rationals, and
every embedded definition is translated from the corresponding JavaScript
source function named in its doc comment.
-/

namespace MessMeter

/-! ## MenuItem rating aggregate (backend/models/MenuItem.js) -/

/-- One category aggregate, `categoryRatings.<cat> = { average, count }`
(MenuItem.js, schema lines 168-184; defaults 0). -/
structure CategoryAgg where
  average : ℚ
  count : ℕ
  deriving DecidableEq, Repr

/-- The four per-category values carried by a rating
(Rating.js `categoryRatings`). -/
structure CategoryValues where
  taste : ℚ
  quantity : ℚ
  freshness : ℚ
  value : ℚ
  deriving DecidableEq, Repr

/-- The denormalized rating aggregate stored on a MenuItem document. -/
structure MenuItemAgg where
  averageRating : ℚ
  totalRatings : ℕ
  taste : CategoryAgg
  quantity : CategoryAgg
  freshness : CategoryAgg
  value : CategoryAgg
  deriving DecidableEq, Repr

/-- A MenuItem aggregate with schema defaults (all zero). -/
def freshAgg : MenuItemAgg :=
  { averageRating := 0, totalRatings := 0,
    taste := ⟨0, 0⟩, quantity := ⟨0, 0⟩, freshness := ⟨0, 0⟩, value := ⟨0, 0⟩ }

/-- Argument of `menuItemSchema.methods.updateRatings`: the overall value plus
the four category values, each category optional because the JS method guards
each with `newRating[category] !== undefined`. -/
structure NewRating where
  overall : ℚ
  taste : Option ℚ
  quantity : Option ℚ
  freshness : Option ℚ
  value : Option ℚ
  deriving DecidableEq, Repr

/-- One category step of `updateRatings`:
`totalCategoryScore = average * count + v; count += 1; average = totalCategoryScore / count`,
skipped when the value is undefined (MenuItem.js lines 282-290). -/
def CategoryAgg.insertValue (c : CategoryAgg) : Option ℚ → CategoryAgg
  | none => c
  | some v =>
    { average := (c.average * c.count + v) / (c.count + 1), count := c.count + 1 }

/-- `menuItemSchema.methods.updateRatings` (MenuItem.js lines 275-293):
`totalScore = averageRating * totalRatings + overall; totalRatings += 1;
averageRating = totalScore / totalRatings`, then each category via
`CategoryAgg.insertValue`. -/
def MenuItemAgg.updateRatings (m : MenuItemAgg) (r : NewRating) : MenuItemAgg :=
  { averageRating := (m.averageRating * m.totalRatings + r.overall) / (m.totalRatings + 1),
    totalRatings := m.totalRatings + 1,
    taste := m.taste.insertValue r.taste,
    quantity := m.quantity.insertValue r.quantity,
    freshness := m.freshness.insertValue r.freshness,
    value := m.value.insertValue r.value }

/-- A rating submission as flowed by `submitRating`
(backend/controllers/rating.js lines 742-748): the overall value and all four
category values are passed. -/
structure Submission where
  overallRating : ℚ
  categoryRatings : CategoryValues
  deriving DecidableEq, Repr

/-- The `updateRatings` argument built by `submitRating`: every category is
defined. -/
def Submission.toNewRating (s : Submission) : NewRating :=
  { overall := s.overallRating,
    taste := some s.categoryRatings.taste,
    quantity := some s.categoryRatings.quantity,
    freshness := some s.categoryRatings.freshness,
    value := some s.categoryRatings.value }

/-- Folding a sequence of accepted submissions through the MenuItem aggregate,
as a run of `submitRating` calls does. -/
def submitAll (m : MenuItemAgg) (subs : List Submission) : MenuItemAgg :=
  subs.foldl (fun acc s => acc.updateRatings s.toNewRating) m

/-- Folding values into one category aggregate. -/
def insertAll (c : CategoryAgg) (vs : List ℚ) : CategoryAgg :=
  vs.foldl (fun acc v => acc.insertValue (some v)) c

lemma insertAll_count (c : CategoryAgg) (vs : List ℚ) :
    (insertAll c vs).count = c.count + vs.length := by
  induction vs generalizing c with
  | nil => simp [insertAll]
  | cons v vs ih =>
    simp only [insertAll, List.foldl_cons, List.length_cons] at *
    rw [ih]
    simp [CategoryAgg.insertValue]
    omega

lemma insertAll_score (c : CategoryAgg) (vs : List ℚ) :
    (insertAll c vs).average * (insertAll c vs).count =
      c.average * c.count + vs.sum := by
  induction vs generalizing c with
  | nil => simp [insertAll]
  | cons v vs ih =>
    simp only [insertAll, List.foldl_cons, List.sum_cons] at *
    rw [ih]
    simp only [CategoryAgg.insertValue]
    have hne : ((c.count : ℚ) + 1) ≠ 0 := by positivity
    push_cast
    rw [div_mul_cancel₀ _ hne]
    ring

lemma submitAll_totalRatings (m : MenuItemAgg) (subs : List Submission) :
    (submitAll m subs).totalRatings = m.totalRatings + subs.length := by
  induction subs generalizing m with
  | nil => simp [submitAll]
  | cons s subs ih =>
    simp only [submitAll, List.foldl_cons, List.length_cons] at *
    rw [ih]
    simp [MenuItemAgg.updateRatings]
    omega

lemma submitAll_score (m : MenuItemAgg) (subs : List Submission) :
    (submitAll m subs).averageRating * (submitAll m subs).totalRatings =
      m.averageRating * m.totalRatings + (subs.map (·.overallRating)).sum := by
  induction subs generalizing m with
  | nil => simp [submitAll]
  | cons s subs ih =>
    simp only [submitAll, List.foldl_cons, List.map_cons, List.sum_cons] at *
    rw [ih]
    simp only [MenuItemAgg.updateRatings, Submission.toNewRating]
    have hne : ((m.totalRatings : ℚ) + 1) ≠ 0 := by positivity
    push_cast
    rw [div_mul_cancel₀ _ hne]
    ring

lemma submitAll_taste (m : MenuItemAgg) (subs : List Submission) :
    (submitAll m subs).taste = insertAll m.taste (subs.map (·.categoryRatings.taste)) := by
  induction subs generalizing m with
  | nil => simp [submitAll, insertAll]
  | cons s subs ih =>
    simp only [submitAll, insertAll, List.foldl_cons, List.map_cons] at *
    rw [ih]
    rfl

lemma submitAll_quantity (m : MenuItemAgg) (subs : List Submission) :
    (submitAll m subs).quantity = insertAll m.quantity (subs.map (·.categoryRatings.quantity)) := by
  induction subs generalizing m with
  | nil => simp [submitAll, insertAll]
  | cons s subs ih =>
    simp only [submitAll, insertAll, List.foldl_cons, List.map_cons] at *
    rw [ih]
    rfl

lemma submitAll_freshness (m : MenuItemAgg) (subs : List Submission) :
    (submitAll m subs).freshness = insertAll m.freshness (subs.map (·.categoryRatings.freshness)) := by
  induction subs generalizing m with
  | nil => simp [submitAll, insertAll]
  | cons s subs ih =>
    simp only [submitAll, insertAll, List.foldl_cons, List.map_cons] at *
    rw [ih]
    rfl

lemma submitAll_value (m : MenuItemAgg) (subs : List Submission) :
    (submitAll m subs).value = insertAll m.value (subs.map (·.categoryRatings.value)) := by
  induction subs generalizing m with
  | nil => simp [submitAll, insertAll]
  | cons s subs ih =>
    simp only [submitAll, insertAll, List.foldl_cons, List.map_cons] at *
    rw [ih]
    rfl

lemma fresh_insertAll_mean (vs : List ℚ) (h : vs ≠ []) :
    (insertAll ⟨0, 0⟩ vs).average = vs.sum / vs.length ∧
      (insertAll ⟨0, 0⟩ vs).count = vs.length := by
  have hc : (insertAll ⟨0, 0⟩ vs).count = vs.length := by
    simpa using insertAll_count ⟨0, 0⟩ vs
  have hs := insertAll_score ⟨0, 0⟩ vs
  rw [hc] at hs
  have hlen : ((vs.length : ℚ)) ≠ 0 := by
    have : vs.length ≠ 0 := by
      simpa [List.length_eq_zero] using h
    exact_mod_cast this
  constructor
  · rw [eq_div_iff hlen]
    simpa using hs
  · exact hc

/-- C1: starting from a fresh MenuItem aggregate, after any non-empty sequence
of N accepted rating submissions (no intervening edits or deletions) the
aggregate satisfies: `averageRating` is the arithmetic mean of the N submitted
`overallRating` values, each category average is the mean of that category
values, and `totalRatings = N`. -/
theorem submitRating_aggregate_is_mean (subs : List Submission) (h : subs ≠ []) :
    (submitAll freshAgg subs).totalRatings = subs.length ∧
    (submitAll freshAgg subs).averageRating =
      (subs.map (·.overallRating)).sum / subs.length ∧
    (submitAll freshAgg subs).taste.average =
      (subs.map (·.categoryRatings.taste)).sum / subs.length ∧
    (submitAll freshAgg subs).quantity.average =
      (subs.map (·.categoryRatings.quantity)).sum / subs.length ∧
    (submitAll freshAgg subs).freshness.average =
      (subs.map (·.categoryRatings.freshness)).sum / subs.length ∧
    (submitAll freshAgg subs).value.average =
      (subs.map (·.categoryRatings.value)).sum / subs.length := by
  have hn : (submitAll freshAgg subs).totalRatings = subs.length := by
    simpa [freshAgg] using submitAll_totalRatings freshAgg subs
  have hlen : ((subs.length : ℚ)) ≠ 0 := by
    have : subs.length ≠ 0 := by
      simpa [List.length_eq_zero] using h
    exact_mod_cast this
  have hmap : ∀ f : Submission → ℚ, (subs.map f) ≠ [] := by
    intro f hf
    exact h (List.map_eq_nil_iff.mp hf)
  refine ⟨hn, ?_, ?_, ?_, ?_, ?_⟩
  · have hs := submitAll_score freshAgg subs
    rw [hn] at hs
    simp only [freshAgg] at hs
    rw [eq_div_iff hlen]
    simpa using hs
  · have := (fresh_insertAll_mean (subs.map (·.categoryRatings.taste))
      (hmap _)).1
    rw [submitAll_taste]
    simpa [freshAgg] using this
  · have := (fresh_insertAll_mean (subs.map (·.categoryRatings.quantity))
      (hmap _)).1
    rw [submitAll_quantity]
    simpa [freshAgg] using this
  · have := (fresh_insertAll_mean (subs.map (·.categoryRatings.freshness))
      (hmap _)).1
    rw [submitAll_freshness]
    simpa [freshAgg] using this
  · have := (fresh_insertAll_mean (subs.map (·.categoryRatings.value))
      (hmap _)).1
    rw [submitAll_value]
    simpa [freshAgg] using this

/-- Witness for C1, at the two spec-example submissions: overall values 4 and 2
give average 3 and `totalRatings = 2`. -/
theorem submitRating_aggregate_is_mean_witness :
    ([⟨4, ⟨4, 5, 3, 4⟩⟩, ⟨2, ⟨2, 2, 2, 2⟩⟩] : List Submission) ≠ [] ∧
    ((submitAll freshAgg [⟨4, ⟨4, 5, 3, 4⟩⟩, ⟨2, ⟨2, 2, 2, 2⟩⟩]).totalRatings =
        ([⟨4, ⟨4, 5, 3, 4⟩⟩, ⟨2, ⟨2, 2, 2, 2⟩⟩] : List Submission).length ∧
      (submitAll freshAgg [⟨4, ⟨4, 5, 3, 4⟩⟩, ⟨2, ⟨2, 2, 2, 2⟩⟩]).averageRating =
        (([⟨4, ⟨4, 5, 3, 4⟩⟩, ⟨2, ⟨2, 2, 2, 2⟩⟩] : List Submission).map
          (·.overallRating)).sum /
          ([⟨4, ⟨4, 5, 3, 4⟩⟩, ⟨2, ⟨2, 2, 2, 2⟩⟩] : List Submission).length ∧
      (submitAll freshAgg [⟨4, ⟨4, 5, 3, 4⟩⟩, ⟨2, ⟨2, 2, 2, 2⟩⟩]).taste.average =
        (([⟨4, ⟨4, 5, 3, 4⟩⟩, ⟨2, ⟨2, 2, 2, 2⟩⟩] : List Submission).map
          (·.categoryRatings.taste)).sum /
          ([⟨4, ⟨4, 5, 3, 4⟩⟩, ⟨2, ⟨2, 2, 2, 2⟩⟩] : List Submission).length ∧
      (submitAll freshAgg [⟨4, ⟨4, 5, 3, 4⟩⟩, ⟨2, ⟨2, 2, 2, 2⟩⟩]).quantity.average =
        (([⟨4, ⟨4, 5, 3, 4⟩⟩, ⟨2, ⟨2, 2, 2, 2⟩⟩] : List Submission).map
          (·.categoryRatings.quantity)).sum /
          ([⟨4, ⟨4, 5, 3, 4⟩⟩, ⟨2, ⟨2, 2, 2, 2⟩⟩] : List Submission).length ∧
      (submitAll freshAgg [⟨4, ⟨4, 5, 3, 4⟩⟩, ⟨2, ⟨2, 2, 2, 2⟩⟩]).freshness.average =
        (([⟨4, ⟨4, 5, 3, 4⟩⟩, ⟨2, ⟨2, 2, 2, 2⟩⟩] : List Submission).map
          (·.categoryRatings.freshness)).sum /
          ([⟨4, ⟨4, 5, 3, 4⟩⟩, ⟨2, ⟨2, 2, 2, 2⟩⟩] : List Submission).length ∧
      (submitAll freshAgg [⟨4, ⟨4, 5, 3, 4⟩⟩, ⟨2, ⟨2, 2, 2, 2⟩⟩]).value.average =
        (([⟨4, ⟨4, 5, 3, 4⟩⟩, ⟨2, ⟨2, 2, 2, 2⟩⟩] : List Submission).map
          (·.categoryRatings.value)).sum /
          ([⟨4, ⟨4, 5, 3, 4⟩⟩, ⟨2, ⟨2, 2, 2, 2⟩⟩] : List Submission).length) :=
  ⟨by decide, submitRating_aggregate_is_mean _ (by decide)⟩

/-! ## Rating lifecycle state machine (controllers/rating.js) -/

/-- JavaScript `Math.round` on a nonnegative finite argument:
`⌊q + 1/2⌋` (for all rating values, which lie in `[1, 5]`, this matches). -/
def jsRound (q : ℚ) : ℤ := ⌊q + 1/2⌋

/-- `Math.round((taste + quantity + freshness + value) / 4)` as computed by
`updateRating` (rating.js lines 1092-1095) and by the Rating pre-save hook
(Rating.js lines 258-264). -/
def roundedMean (c : CategoryValues) : ℚ :=
  (jsRound ((c.taste + c.quantity + c.freshness + c.value) / 4) : ℤ)

/-- One stored Rating document, restricted to the fields the aggregate
invariant depends on. -/
structure RatingRec where
  overallRating : ℚ
  categoryRatings : CategoryValues
  isActive : Bool
  deriving DecidableEq, Repr

/-- One MenuItem together with its ratings: the ledger of Rating documents
(in submission order) and the denormalized aggregate. -/
structure ItemState where
  ratings : List RatingRec
  agg : MenuItemAgg
  deriving DecidableEq, Repr

/-- Replacement step used by `updateRating` on one category aggregate
(rating.js lines 1112-1119): `average = (average * count - oldV + newV) / count`,
count unchanged. -/
def replaceCat (c : CategoryAgg) (oldV newV : ℚ) : CategoryAgg :=
  { average := (c.average * c.count - oldV + newV) / c.count, count := c.count }

/-- The MenuItem aggregate correction performed by `updateRating`
(rating.js lines 1101-1121): exact replacement for the overall average and for
each category average; `totalRatings` and every category count unchanged. -/
def applyUpdateAgg (m : MenuItemAgg) (oldOverall newOverall : ℚ)
    (oldC newC : CategoryValues) : MenuItemAgg :=
  { averageRating :=
      (m.averageRating * m.totalRatings - oldOverall + newOverall) / m.totalRatings,
    totalRatings := m.totalRatings,
    taste := replaceCat m.taste oldC.taste newC.taste,
    quantity := replaceCat m.quantity oldC.quantity newC.quantity,
    freshness := replaceCat m.freshness oldC.freshness newC.freshness,
    value := replaceCat m.value oldC.value newC.value }

/-- One accepted operation on an item, as performed by the three controller
handlers of rating.js. -/
inductive RatingOp where
  | submit (overall : ℚ) (cats : CategoryValues)
  | update (idx : ℕ) (cats : CategoryValues)
  | delete (idx : ℕ)
  deriving DecidableEq, Repr

/-- The state change of one accepted call:
* `submit` appends an active rating and runs `menuItem.updateRatings`
  (rating.js lines 717-749);
* `update` overwrites the category ratings, recomputes
  `overallRating = Math.round(mean)` and corrects the aggregate by replacement
  (rating.js lines 1080-1123);
* `delete` soft-deletes the rating (`isActive = false`) and does not touch the
  aggregate at all (rating.js lines 1169-1171). -/
def ItemState.applyOp (st : ItemState) : RatingOp → ItemState
  | .submit overall cats =>
    { ratings := st.ratings ++ [⟨overall, cats, true⟩],
      agg := st.agg.updateRatings
        ⟨overall, some cats.taste, some cats.quantity, some cats.freshness, some cats.value⟩ }
  | .update idx cats =>
    match st.ratings[idx]? with
    | none => st
    | some r =>
      let newOverall := roundedMean cats
      { ratings := st.ratings.set idx ⟨newOverall, cats, r.isActive⟩,
        agg := applyUpdateAgg st.agg r.overallRating newOverall r.categoryRatings cats }
  | .delete idx =>
    match st.ratings[idx]? with
    | none => st
    | some r =>
      { ratings := st.ratings.set idx { r with isActive := false }, agg := st.agg }

/-- Running a sequence of accepted operations from an item with no ratings. -/
def runOps (ops : List RatingOp) : ItemState := ops.foldl ItemState.applyOp ⟨[], freshAgg⟩

/-- The `overallRating` values of the active (non-soft-deleted) ratings. -/
def activeOveralls (st : ItemState) : List ℚ :=
  (st.ratings.filter (·.isActive)).map (·.overallRating)

/-- The consistency relation between the ledger and the aggregate, in
product form (defined also for an empty ledger). -/
def AggInv (st : ItemState) : Prop :=
  st.agg.totalRatings = st.ratings.length ∧
  st.agg.averageRating * st.ratings.length = (st.ratings.map (·.overallRating)).sum ∧
  st.agg.taste.count = st.ratings.length ∧
  st.agg.taste.average * st.ratings.length =
    (st.ratings.map (·.categoryRatings.taste)).sum ∧
  st.agg.quantity.count = st.ratings.length ∧
  st.agg.quantity.average * st.ratings.length =
    (st.ratings.map (·.categoryRatings.quantity)).sum ∧
  st.agg.freshness.count = st.ratings.length ∧
  st.agg.freshness.average * st.ratings.length =
    (st.ratings.map (·.categoryRatings.freshness)).sum ∧
  st.agg.value.count = st.ratings.length ∧
  st.agg.value.average * st.ratings.length =
    (st.ratings.map (·.categoryRatings.value)).sum ∧
  (∀ r ∈ st.ratings, r.isActive = true)

lemma sum_map_set {α : Type} (f : α → ℚ) (l : List α) (i : ℕ) (a : α)
    (h : i < l.length) :
    ((l.set i a).map f).sum = (l.map f).sum - f l[i] + f a := by
  induction l generalizing i with
  | nil => simp at h
  | cons x xs ih =>
    cases i with
    | zero =>
      simp only [List.set, List.map_cons, List.sum_cons, List.getElem_cons_zero]
      ring
    | succ n =>
      have hn : n < xs.length := by simpa using h
      simp only [List.set, List.map_cons, List.sum_cons, List.getElem_cons_succ]
      rw [ih n hn]
      ring

lemma insertValue_preserves (c : CategoryAgg) (n : ℕ) (s v : ℚ)
    (hc : c.count = n) (hs : c.average * n = s) :
    (c.insertValue (some v)).count = n + 1 ∧
    (c.insertValue (some v)).average * ((n : ℚ) + 1) = s + v := by
  subst hc
  constructor
  · rfl
  · have hne : ((c.count : ℚ) + 1) ≠ 0 := by positivity
    simp only [CategoryAgg.insertValue]
    rw [div_mul_cancel₀ _ hne, hs]

lemma replaceCat_preserves (c : CategoryAgg) (n : ℕ) (s oldV newV : ℚ)
    (hc : c.count = n) (hs : c.average * n = s) (hn : n ≠ 0) :
    (replaceCat c oldV newV).count = n ∧
    (replaceCat c oldV newV).average * (n : ℚ) = s - oldV + newV := by
  subst hc
  refine ⟨rfl, ?_⟩
  have hne : ((c.count : ℚ)) ≠ 0 := by exact_mod_cast hn
  simp only [replaceCat]
  rw [div_mul_cancel₀ _ hne, hs]

lemma applyOp_preserves (st : ItemState) (op : RatingOp)
    (hop : ∀ idx, op ≠ .delete idx) (h : AggInv st) : AggInv (st.applyOp op) := by
  obtain ⟨h1, h2, h3, h4, h5, h6, h7, h8, h9, h10, hact⟩ := h
  cases op with
  | delete idx => exact absurd rfl (hop idx)
  | submit overall cats =>
    refine ⟨?_, ?_, ?_, ?_, ?_, ?_, ?_, ?_, ?_, ?_, ?_⟩ <;>
      simp only [ItemState.applyOp, MenuItemAgg.updateRatings, List.length_append,
        List.length_cons, List.length_nil, List.map_append, List.sum_append,
        List.map_cons, List.sum_cons, List.map_nil, List.sum_nil, add_zero]
    · omega
    · have hne : ((st.agg.totalRatings : ℚ) + 1) ≠ 0 := by positivity
      push_cast [h1]
      rw [div_mul_cancel₀]
      · rw [← h1] at h2 ⊢
        rw [h2]
      · rw [← h1]
        exact hne
    · have := (insertValue_preserves st.agg.taste _ _ cats.taste h3 h4).1
      omega
    · have := (insertValue_preserves st.agg.taste _ _ cats.taste h3 h4).2
      push_cast at this ⊢
      linarith
    · have := (insertValue_preserves st.agg.quantity _ _ cats.quantity h5 h6).1
      omega
    · have := (insertValue_preserves st.agg.quantity _ _ cats.quantity h5 h6).2
      push_cast at this ⊢
      linarith
    · have := (insertValue_preserves st.agg.freshness _ _ cats.freshness h7 h8).1
      omega
    · have := (insertValue_preserves st.agg.freshness _ _ cats.freshness h7 h8).2
      push_cast at this ⊢
      linarith
    · have := (insertValue_preserves st.agg.value _ _ cats.value h9 h10).1
      omega
    · have := (insertValue_preserves st.agg.value _ _ cats.value h9 h10).2
      push_cast at this ⊢
      linarith
    · intro r hr
      rcases List.mem_append.mp hr with hmem | hmem
      · exact hact r hmem
      · simp only [List.mem_singleton] at hmem
        subst hmem
        rfl
  | update idx cats =>
    simp only [ItemState.applyOp]
    cases hidx : st.ratings[idx]? with
    | none => exact ⟨h1, h2, h3, h4, h5, h6, h7, h8, h9, h10, hact⟩
    | some r =>
      obtain ⟨hlt, hget⟩ := List.getElem?_eq_some_iff.mp hidx
      have hlen0 : st.ratings.length ≠ 0 := by omega
      have hlenQ : ((st.ratings.length : ℚ)) ≠ 0 := by exact_mod_cast hlen0
      have hrmem : r ∈ st.ratings := hget ▸ List.getElem_mem hlt
      refine ⟨?_, ?_, ?_, ?_, ?_, ?_, ?_, ?_, ?_, ?_, ?_⟩
      · simpa [applyUpdateAgg, List.length_set] using h1
      · simp only [applyUpdateAgg, List.length_set]
        rw [sum_map_set _ _ _ _ hlt, hget, h1, div_mul_cancel₀ _ hlenQ, h2]
      · have := (replaceCat_preserves st.agg.taste _ _ r.categoryRatings.taste
          cats.taste h3 h4 hlen0).1
        simpa [applyUpdateAgg, List.length_set] using this
      · have := (replaceCat_preserves st.agg.taste _ _ r.categoryRatings.taste
          cats.taste h3 h4 hlen0).2
        simp only [applyUpdateAgg, List.length_set]
        rw [sum_map_set _ _ _ _ hlt, hget]
        exact this
      · have := (replaceCat_preserves st.agg.quantity _ _ r.categoryRatings.quantity
          cats.quantity h5 h6 hlen0).1
        simpa [applyUpdateAgg, List.length_set] using this
      · have := (replaceCat_preserves st.agg.quantity _ _ r.categoryRatings.quantity
          cats.quantity h5 h6 hlen0).2
        simp only [applyUpdateAgg, List.length_set]
        rw [sum_map_set _ _ _ _ hlt, hget]
        exact this
      · have := (replaceCat_preserves st.agg.freshness _ _ r.categoryRatings.freshness
          cats.freshness h7 h8 hlen0).1
        simpa [applyUpdateAgg, List.length_set] using this
      · have := (replaceCat_preserves st.agg.freshness _ _ r.categoryRatings.freshness
          cats.freshness h7 h8 hlen0).2
        simp only [applyUpdateAgg, List.length_set]
        rw [sum_map_set _ _ _ _ hlt, hget]
        exact this
      · have := (replaceCat_preserves st.agg.value _ _ r.categoryRatings.value
          cats.value h9 h10 hlen0).1
        simpa [applyUpdateAgg, List.length_set] using this
      · have := (replaceCat_preserves st.agg.value _ _ r.categoryRatings.value
          cats.value h9 h10 hlen0).2
        simp only [applyUpdateAgg, List.length_set]
        rw [sum_map_set _ _ _ _ hlt, hget]
        exact this
      · intro x hx
        rcases List.mem_or_eq_of_mem_set hx with hmem | hmem
        · exact hact x hmem
        · subst hmem
          exact hact r hrmem

lemma foldl_preserves_inv (ops : List RatingOp) (st : ItemState)
    (h : ∀ idx, RatingOp.delete idx ∉ ops) (hst : AggInv st) :
    AggInv (ops.foldl ItemState.applyOp st) := by
  induction ops generalizing st with
  | nil => simpa using hst
  | cons op ops ih =>
    simp only [List.foldl_cons]
    refine ih _ (fun idx hmem => h idx (List.mem_cons_of_mem _ hmem)) ?_
    refine applyOp_preserves st op (fun idx heq => ?_) hst
    exact h idx (heq ▸ List.mem_cons_self _ _)

/-- C2 counterexample: the claim as stated fails on the code. After
`submitRating(overall 4)`, `submitRating(overall 2)`, `deleteRating` of the
second rating, the only active rating has value 4 (mean 4), but the stored
`averageRating` is still 3: `deleteRating` soft-deletes without rolling back
the MenuItem aggregate (rating.js lines 1169-1171). -/
theorem deleteRating_breaks_aggregate_invariant :
    activeOveralls
        (runOps [.submit 4 ⟨4, 4, 4, 4⟩, .submit 2 ⟨2, 2, 2, 2⟩, .delete 1]) = [4] ∧
    (runOps [.submit 4 ⟨4, 4, 4, 4⟩, .submit 2 ⟨2, 2, 2, 2⟩, .delete 1]).agg.averageRating = 3 ∧
    (runOps [.submit 4 ⟨4, 4, 4, 4⟩, .submit 2 ⟨2, 2, 2, 2⟩, .delete 1]).agg.averageRating ≠
      (activeOveralls
          (runOps [.submit 4 ⟨4, 4, 4, 4⟩, .submit 2 ⟨2, 2, 2, 2⟩, .delete 1])).sum /
        (activeOveralls
          (runOps [.submit 4 ⟨4, 4, 4, 4⟩, .submit 2 ⟨2, 2, 2, 2⟩, .delete 1])).length := by
  norm_num [runOps, ItemState.applyOp, MenuItemAgg.updateRatings, CategoryAgg.insertValue,
    applyUpdateAgg, replaceCat, activeOveralls, freshAgg]

/-- C2 amended: in every state reachable from a fresh item by any sequence of
accepted `submitRating` and `updateRating` operations (no deletions), every
stored rating is active, `totalRatings` equals the number of ratings, and
`averageRating` and each category average equal the mean of the corresponding
values over those (all active) ratings. `deleteRating` is excluded because it
does not roll the aggregate back. -/
theorem aggregate_invariant_without_deletes (ops : List RatingOp)
    (h : ∀ idx, RatingOp.delete idx ∉ ops) :
    (runOps ops).agg.totalRatings = (runOps ops).ratings.length ∧
    (∀ r ∈ (runOps ops).ratings, r.isActive = true) ∧
    activeOveralls (runOps ops) = (runOps ops).ratings.map (·.overallRating) ∧
    ((runOps ops).ratings ≠ [] →
      (runOps ops).agg.averageRating =
        ((runOps ops).ratings.map (·.overallRating)).sum / (runOps ops).ratings.length ∧
      (runOps ops).agg.taste.average =
        ((runOps ops).ratings.map (·.categoryRatings.taste)).sum /
          (runOps ops).ratings.length ∧
      (runOps ops).agg.quantity.average =
        ((runOps ops).ratings.map (·.categoryRatings.quantity)).sum /
          (runOps ops).ratings.length ∧
      (runOps ops).agg.freshness.average =
        ((runOps ops).ratings.map (·.categoryRatings.freshness)).sum /
          (runOps ops).ratings.length ∧
      (runOps ops).agg.value.average =
        ((runOps ops).ratings.map (·.categoryRatings.value)).sum /
          (runOps ops).ratings.length) := by
  have hinit : AggInv ⟨[], freshAgg⟩ := by
    simp [AggInv, freshAgg]
  have hinv := foldl_preserves_inv ops ⟨[], freshAgg⟩ h hinit
  obtain ⟨h1, h2, h3, h4, h5, h6, h7, h8, h9, h10, hact⟩ := hinv
  refine ⟨h1, hact, ?_, ?_⟩
  · unfold activeOveralls
    rw [List.filter_eq_self.mpr]
    intro a ha
    simpa using hact a ha
  · intro hne
    have hlen : (((runOps ops).ratings.length : ℚ)) ≠ 0 := by
      have : (runOps ops).ratings.length ≠ 0 := by
        simpa [List.length_eq_zero] using hne
      exact_mod_cast this
    exact ⟨(eq_div_iff hlen).mpr h2, (eq_div_iff hlen).mpr h4,
      (eq_div_iff hlen).mpr h6, (eq_div_iff hlen).mpr h8, (eq_div_iff hlen).mpr h10⟩

/-- Witness for the amended C2, at a submission followed by an edit. -/
theorem aggregate_invariant_without_deletes_witness :
    (∀ idx, RatingOp.delete idx ∉
      ([.submit 4 ⟨4, 5, 3, 4⟩, .update 0 ⟨2, 2, 2, 2⟩] : List RatingOp)) ∧
    ((runOps [.submit 4 ⟨4, 5, 3, 4⟩, .update 0 ⟨2, 2, 2, 2⟩]).agg.totalRatings =
      (runOps [.submit 4 ⟨4, 5, 3, 4⟩, .update 0 ⟨2, 2, 2, 2⟩]).ratings.length ∧
    (∀ r ∈ (runOps [.submit 4 ⟨4, 5, 3, 4⟩, .update 0 ⟨2, 2, 2, 2⟩]).ratings,
      r.isActive = true) ∧
    activeOveralls (runOps [.submit 4 ⟨4, 5, 3, 4⟩, .update 0 ⟨2, 2, 2, 2⟩]) =
      (runOps [.submit 4 ⟨4, 5, 3, 4⟩, .update 0 ⟨2, 2, 2, 2⟩]).ratings.map
        (·.overallRating) ∧
    ((runOps [.submit 4 ⟨4, 5, 3, 4⟩, .update 0 ⟨2, 2, 2, 2⟩]).ratings ≠ [] →
      (runOps [.submit 4 ⟨4, 5, 3, 4⟩, .update 0 ⟨2, 2, 2, 2⟩]).agg.averageRating =
        ((runOps [.submit 4 ⟨4, 5, 3, 4⟩, .update 0 ⟨2, 2, 2, 2⟩]).ratings.map
          (·.overallRating)).sum /
          (runOps [.submit 4 ⟨4, 5, 3, 4⟩, .update 0 ⟨2, 2, 2, 2⟩]).ratings.length ∧
      (runOps [.submit 4 ⟨4, 5, 3, 4⟩, .update 0 ⟨2, 2, 2, 2⟩]).agg.taste.average =
        ((runOps [.submit 4 ⟨4, 5, 3, 4⟩, .update 0 ⟨2, 2, 2, 2⟩]).ratings.map
          (·.categoryRatings.taste)).sum /
          (runOps [.submit 4 ⟨4, 5, 3, 4⟩, .update 0 ⟨2, 2, 2, 2⟩]).ratings.length ∧
      (runOps [.submit 4 ⟨4, 5, 3, 4⟩, .update 0 ⟨2, 2, 2, 2⟩]).agg.quantity.average =
        ((runOps [.submit 4 ⟨4, 5, 3, 4⟩, .update 0 ⟨2, 2, 2, 2⟩]).ratings.map
          (·.categoryRatings.quantity)).sum /
          (runOps [.submit 4 ⟨4, 5, 3, 4⟩, .update 0 ⟨2, 2, 2, 2⟩]).ratings.length ∧
      (runOps [.submit 4 ⟨4, 5, 3, 4⟩, .update 0 ⟨2, 2, 2, 2⟩]).agg.freshness.average =
        ((runOps [.submit 4 ⟨4, 5, 3, 4⟩, .update 0 ⟨2, 2, 2, 2⟩]).ratings.map
          (·.categoryRatings.freshness)).sum /
          (runOps [.submit 4 ⟨4, 5, 3, 4⟩, .update 0 ⟨2, 2, 2, 2⟩]).ratings.length ∧
      (runOps [.submit 4 ⟨4, 5, 3, 4⟩, .update 0 ⟨2, 2, 2, 2⟩]).agg.value.average =
        ((runOps [.submit 4 ⟨4, 5, 3, 4⟩, .update 0 ⟨2, 2, 2, 2⟩]).ratings.map
          (·.categoryRatings.value)).sum /
          (runOps [.submit 4 ⟨4, 5, 3, 4⟩, .update 0 ⟨2, 2, 2, 2⟩]).ratings.length)) := by
  have pf : ∀ idx, RatingOp.delete idx ∉
      ([.submit 4 ⟨4, 5, 3, 4⟩, .update 0 ⟨2, 2, 2, 2⟩] : List RatingOp) := by
    intro idx
    simp
  exact ⟨pf, aggregate_invariant_without_deletes _ pf⟩

/-! ## The updateRating handler (rating.js lines 1053-1137) -/

/-- A stored Rating document as seen by `updateRating`. -/
structure RatingDoc where
  ratingId : ℕ
  student : ℕ
  createdAtMs : ℤ
  overallRating : ℚ
  categoryRatings : CategoryValues
  deriving DecidableEq, Repr

/-- The `ratingStats` aggregate embedded in a DailyMenu document
(DailyMenu.js schema) plus the `expectedStudents` field feeding
`participationRate`. -/
structure DailyMenuStats where
  totalRatings : ℕ
  averageRating : ℚ
  categoryAverages : CategoryValues
  participationRate : ℚ
  expectedStudents : ℕ
  deriving DecidableEq, Repr

/-- The documents an `updateRating` request can read or write: the targeted
Rating, its owning MenuItem aggregate (`findById` result) and the associated
DailyMenu aggregate. -/
structure UpdateState where
  rating : RatingDoc
  menuItem : Option MenuItemAgg
  dailyMenu : DailyMenuStats
  deriving DecidableEq, Repr

/-- The request body fields of `updateRating` that affect the aggregates:
only `categoryRatings` (review and emojiReaction do not). -/
structure UpdateBody where
  categoryRatings : Option CategoryValues
  deriving DecidableEq, Repr

/-- Result of one `updateRating` call. -/
inductive UpdateOutcome where
  | notFound
  | windowExpired
  | updated (st : UpdateState)
  deriving DecidableEq, Repr

/-- `updateRating` (rating.js lines 1053-1137): find the rating by
`(ratingId, studentId)` else 404; reject when
`(now - createdAt) / 3600000 > 24`; on a category change set
`overallRating = Math.round((taste + quantity + freshness + value) / 4)`
and correct the MenuItem aggregate by exact replacement; the DailyMenu
document is never read or written. -/
def updateRating (nowMs : ℤ) (studentId ratingId : ℕ) (body : UpdateBody)
    (st : UpdateState) : UpdateOutcome :=
  if st.rating.ratingId = ratingId ∧ st.rating.student = studentId then
    if ((nowMs - st.rating.createdAtMs : ℤ) : ℚ) / (1000 * 60 * 60) > 24 then
      .windowExpired
    else
      match body.categoryRatings with
      | none => .updated st
      | some c =>
        let newOverall := roundedMean c
        .updated
          { rating := { st.rating with categoryRatings := c, overallRating := newOverall },
            menuItem := st.menuItem.map
              (fun m => applyUpdateAgg m st.rating.overallRating newOverall
                st.rating.categoryRatings c),
            dailyMenu := st.dailyMenu }
  else .notFound

/-- C3: an accepted `updateRating` (within 24 hours, by the owning student)
that supplies new category ratings sets
`overallRating = round((taste + quantity + freshness + value) / 4)` and
corrects the MenuItem aggregate by exact replacement:
`newAvg = (oldAvg * count - oldValue + newValue) / count` for the overall
average and for each category average, with `totalRatings` and every category
count unchanged. -/
theorem updateRating_replaces_contribution (nowMs : ℤ) (studentId ratingId : ℕ)
    (body : UpdateBody) (st : UpdateState) (c : CategoryValues) (m : MenuItemAgg)
    (hid : st.rating.ratingId = ratingId ∧ st.rating.student = studentId)
    (hwin : ¬ ((nowMs - st.rating.createdAtMs : ℤ) : ℚ) / (1000 * 60 * 60) > 24)
    (hc : body.categoryRatings = some c)
    (hm : st.menuItem = some m) :
    ∃ rating' mi',
      updateRating nowMs studentId ratingId body st =
        .updated ⟨rating', some mi', st.dailyMenu⟩ ∧
      rating'.overallRating =
        ((jsRound ((c.taste + c.quantity + c.freshness + c.value) / 4) : ℤ) : ℚ) ∧
      rating'.categoryRatings = c ∧
      mi'.averageRating =
        (m.averageRating * m.totalRatings - st.rating.overallRating +
          rating'.overallRating) / m.totalRatings ∧
      mi'.totalRatings = m.totalRatings ∧
      mi'.taste.average =
        (m.taste.average * m.taste.count - st.rating.categoryRatings.taste + c.taste) /
          m.taste.count ∧
      mi'.taste.count = m.taste.count ∧
      mi'.quantity.average =
        (m.quantity.average * m.quantity.count - st.rating.categoryRatings.quantity +
          c.quantity) / m.quantity.count ∧
      mi'.quantity.count = m.quantity.count ∧
      mi'.freshness.average =
        (m.freshness.average * m.freshness.count - st.rating.categoryRatings.freshness +
          c.freshness) / m.freshness.count ∧
      mi'.freshness.count = m.freshness.count ∧
      mi'.value.average =
        (m.value.average * m.value.count - st.rating.categoryRatings.value + c.value) /
          m.value.count ∧
      mi'.value.count = m.value.count := by
  refine ⟨{ st.rating with categoryRatings := c, overallRating := roundedMean c },
    applyUpdateAgg m st.rating.overallRating (roundedMean c) st.rating.categoryRatings c,
    ?_, ?_⟩
  · simp only [updateRating, hid, and_self, if_true, if_neg hwin, hc, hm, Option.map_some']
  · exact ⟨rfl, rfl, rfl, rfl, rfl, rfl, rfl, rfl, rfl, rfl, rfl, rfl⟩

/-- Witness for C3: a concrete accepted edit one hour after creation,
categories (2, 3, 3, 3), old overall 4, on an item aggregate with average 4
over 2 ratings. -/
theorem updateRating_replaces_contribution_witness :
    ((⟨⟨7, 1, 0, 4, ⟨4, 5, 3, 4⟩⟩, some ⟨4, 2, ⟨4, 2⟩, ⟨5, 2⟩, ⟨3, 2⟩, ⟨4, 2⟩⟩,
        ⟨2, 4, ⟨4, 5, 3, 4⟩, 1, 200⟩⟩ : UpdateState).rating.ratingId = 7 ∧
      (⟨⟨7, 1, 0, 4, ⟨4, 5, 3, 4⟩⟩, some ⟨4, 2, ⟨4, 2⟩, ⟨5, 2⟩, ⟨3, 2⟩, ⟨4, 2⟩⟩,
        ⟨2, 4, ⟨4, 5, 3, 4⟩, 1, 200⟩⟩ : UpdateState).rating.student = 1) ∧
    ¬ ((((3600000 : ℤ) -
        (⟨⟨7, 1, 0, 4, ⟨4, 5, 3, 4⟩⟩, some ⟨4, 2, ⟨4, 2⟩, ⟨5, 2⟩, ⟨3, 2⟩, ⟨4, 2⟩⟩,
          ⟨2, 4, ⟨4, 5, 3, 4⟩, 1, 200⟩⟩ : UpdateState).rating.createdAtMs : ℤ) : ℚ) /
        (1000 * 60 * 60) > 24) ∧
    (UpdateBody.mk (some ⟨2, 3, 3, 3⟩)).categoryRatings = some ⟨2, 3, 3, 3⟩ ∧
    (⟨⟨7, 1, 0, 4, ⟨4, 5, 3, 4⟩⟩, some ⟨4, 2, ⟨4, 2⟩, ⟨5, 2⟩, ⟨3, 2⟩, ⟨4, 2⟩⟩,
      ⟨2, 4, ⟨4, 5, 3, 4⟩, 1, 200⟩⟩ : UpdateState).menuItem =
        some ⟨4, 2, ⟨4, 2⟩, ⟨5, 2⟩, ⟨3, 2⟩, ⟨4, 2⟩⟩ ∧
    ∃ rating' mi',
      updateRating 3600000 1 7 (UpdateBody.mk (some ⟨2, 3, 3, 3⟩))
          ⟨⟨7, 1, 0, 4, ⟨4, 5, 3, 4⟩⟩, some ⟨4, 2, ⟨4, 2⟩, ⟨5, 2⟩, ⟨3, 2⟩, ⟨4, 2⟩⟩,
            ⟨2, 4, ⟨4, 5, 3, 4⟩, 1, 200⟩⟩ =
        .updated ⟨rating', some mi', ⟨2, 4, ⟨4, 5, 3, 4⟩, 1, 200⟩⟩ ∧
      rating'.overallRating =
        ((jsRound (((2 : ℚ) + 3 + 3 + 3) / 4) : ℤ) : ℚ) ∧
      rating'.categoryRatings = (⟨2, 3, 3, 3⟩ : CategoryValues) ∧
      mi'.averageRating = ((4 : ℚ) * 2 - 4 + rating'.overallRating) / 2 ∧
      mi'.totalRatings = 2 ∧
      mi'.taste.average = ((4 : ℚ) * 2 - 4 + 2) / 2 ∧
      mi'.taste.count = 2 ∧
      mi'.quantity.average = ((5 : ℚ) * 2 - 5 + 3) / 2 ∧
      mi'.quantity.count = 2 ∧
      mi'.freshness.average = ((3 : ℚ) * 2 - 3 + 3) / 2 ∧
      mi'.freshness.count = 2 ∧
      mi'.value.average = ((4 : ℚ) * 2 - 4 + 3) / 2 ∧
      mi'.value.count = 2 := by
  have h1 : (⟨⟨7, 1, 0, 4, ⟨4, 5, 3, 4⟩⟩, some ⟨4, 2, ⟨4, 2⟩, ⟨5, 2⟩, ⟨3, 2⟩, ⟨4, 2⟩⟩,
      ⟨2, 4, ⟨4, 5, 3, 4⟩, 1, 200⟩⟩ : UpdateState).rating.ratingId = 7 ∧
      (⟨⟨7, 1, 0, 4, ⟨4, 5, 3, 4⟩⟩, some ⟨4, 2, ⟨4, 2⟩, ⟨5, 2⟩, ⟨3, 2⟩, ⟨4, 2⟩⟩,
        ⟨2, 4, ⟨4, 5, 3, 4⟩, 1, 200⟩⟩ : UpdateState).rating.student = 1 := ⟨rfl, rfl⟩
  have h2 : ¬ ((((3600000 : ℤ) -
      (⟨⟨7, 1, 0, 4, ⟨4, 5, 3, 4⟩⟩, some ⟨4, 2, ⟨4, 2⟩, ⟨5, 2⟩, ⟨3, 2⟩, ⟨4, 2⟩⟩,
        ⟨2, 4, ⟨4, 5, 3, 4⟩, 1, 200⟩⟩ : UpdateState).rating.createdAtMs : ℤ) : ℚ) /
      (1000 * 60 * 60) > 24) := by
    norm_num
  exact ⟨h1, h2, rfl, rfl,
    updateRating_replaces_contribution 3600000 1 7 _ _ ⟨2, 3, 3, 3⟩ _ h1 h2 rfl rfl⟩

/-- C9: an accepted `updateRating` call never modifies the associated
DailyMenu document: its `ratingStats` (totalRatings, averageRating, every
category average, participationRate) are identical before and after, even
when the MenuItem aggregate is corrected. -/
theorem updateRating_preserves_dailyMenu (nowMs : ℤ) (studentId ratingId : ℕ)
    (body : UpdateBody) (st : UpdateState)
    (hid : st.rating.ratingId = ratingId ∧ st.rating.student = studentId)
    (hwin : ¬ ((nowMs - st.rating.createdAtMs : ℤ) : ℚ) / (1000 * 60 * 60) > 24) :
    ∃ st', updateRating nowMs studentId ratingId body st = .updated st' ∧
      st'.dailyMenu = st.dailyMenu ∧
      st'.dailyMenu.totalRatings = st.dailyMenu.totalRatings ∧
      st'.dailyMenu.averageRating = st.dailyMenu.averageRating ∧
      st'.dailyMenu.categoryAverages = st.dailyMenu.categoryAverages ∧
      st'.dailyMenu.participationRate = st.dailyMenu.participationRate := by
  cases hc : body.categoryRatings with
  | none =>
    refine ⟨st, ?_, rfl, rfl, rfl, rfl, rfl⟩
    simp only [updateRating, hid, and_self, if_true, if_neg hwin, hc]
  | some c =>
    refine ⟨⟨{ st.rating with categoryRatings := c, overallRating := roundedMean c },
      st.menuItem.map
        (fun m => applyUpdateAgg m st.rating.overallRating (roundedMean c)
          st.rating.categoryRatings c),
      st.dailyMenu⟩, ?_, rfl, rfl, rfl, rfl, rfl⟩
    simp only [updateRating, hid, and_self, if_true, if_neg hwin, hc]

/-- Witness for C9 at the same concrete accepted edit as the C3 witness. -/
theorem updateRating_preserves_dailyMenu_witness :
    ((⟨⟨7, 1, 0, 4, ⟨4, 5, 3, 4⟩⟩, some ⟨4, 2, ⟨4, 2⟩, ⟨5, 2⟩, ⟨3, 2⟩, ⟨4, 2⟩⟩,
        ⟨2, 4, ⟨4, 5, 3, 4⟩, 1, 200⟩⟩ : UpdateState).rating.ratingId = 7 ∧
      (⟨⟨7, 1, 0, 4, ⟨4, 5, 3, 4⟩⟩, some ⟨4, 2, ⟨4, 2⟩, ⟨5, 2⟩, ⟨3, 2⟩, ⟨4, 2⟩⟩,
        ⟨2, 4, ⟨4, 5, 3, 4⟩, 1, 200⟩⟩ : UpdateState).rating.student = 1) ∧
    ¬ ((((3600000 : ℤ) -
        (⟨⟨7, 1, 0, 4, ⟨4, 5, 3, 4⟩⟩, some ⟨4, 2, ⟨4, 2⟩, ⟨5, 2⟩, ⟨3, 2⟩, ⟨4, 2⟩⟩,
          ⟨2, 4, ⟨4, 5, 3, 4⟩, 1, 200⟩⟩ : UpdateState).rating.createdAtMs : ℤ) : ℚ) /
        (1000 * 60 * 60) > 24) ∧
    ∃ st', updateRating 3600000 1 7 (UpdateBody.mk (some ⟨2, 3, 3, 3⟩))
        ⟨⟨7, 1, 0, 4, ⟨4, 5, 3, 4⟩⟩, some ⟨4, 2, ⟨4, 2⟩, ⟨5, 2⟩, ⟨3, 2⟩, ⟨4, 2⟩⟩,
          ⟨2, 4, ⟨4, 5, 3, 4⟩, 1, 200⟩⟩ = .updated st' ∧
      st'.dailyMenu =
        (⟨⟨7, 1, 0, 4, ⟨4, 5, 3, 4⟩⟩, some ⟨4, 2, ⟨4, 2⟩, ⟨5, 2⟩, ⟨3, 2⟩, ⟨4, 2⟩⟩,
          ⟨2, 4, ⟨4, 5, 3, 4⟩, 1, 200⟩⟩ : UpdateState).dailyMenu ∧
      st'.dailyMenu.totalRatings =
        (⟨⟨7, 1, 0, 4, ⟨4, 5, 3, 4⟩⟩, some ⟨4, 2, ⟨4, 2⟩, ⟨5, 2⟩, ⟨3, 2⟩, ⟨4, 2⟩⟩,
          ⟨2, 4, ⟨4, 5, 3, 4⟩, 1, 200⟩⟩ : UpdateState).dailyMenu.totalRatings ∧
      st'.dailyMenu.averageRating =
        (⟨⟨7, 1, 0, 4, ⟨4, 5, 3, 4⟩⟩, some ⟨4, 2, ⟨4, 2⟩, ⟨5, 2⟩, ⟨3, 2⟩, ⟨4, 2⟩⟩,
          ⟨2, 4, ⟨4, 5, 3, 4⟩, 1, 200⟩⟩ : UpdateState).dailyMenu.averageRating ∧
      st'.dailyMenu.categoryAverages =
        (⟨⟨7, 1, 0, 4, ⟨4, 5, 3, 4⟩⟩, some ⟨4, 2, ⟨4, 2⟩, ⟨5, 2⟩, ⟨3, 2⟩, ⟨4, 2⟩⟩,
          ⟨2, 4, ⟨4, 5, 3, 4⟩, 1, 200⟩⟩ : UpdateState).dailyMenu.categoryAverages ∧
      st'.dailyMenu.participationRate =
        (⟨⟨7, 1, 0, 4, ⟨4, 5, 3, 4⟩⟩, some ⟨4, 2, ⟨4, 2⟩, ⟨5, 2⟩, ⟨3, 2⟩, ⟨4, 2⟩⟩,
          ⟨2, 4, ⟨4, 5, 3, 4⟩, 1, 200⟩⟩ : UpdateState).dailyMenu.participationRate := by
  have h1 : (⟨⟨7, 1, 0, 4, ⟨4, 5, 3, 4⟩⟩, some ⟨4, 2, ⟨4, 2⟩, ⟨5, 2⟩, ⟨3, 2⟩, ⟨4, 2⟩⟩,
      ⟨2, 4, ⟨4, 5, 3, 4⟩, 1, 200⟩⟩ : UpdateState).rating.ratingId = 7 ∧
      (⟨⟨7, 1, 0, 4, ⟨4, 5, 3, 4⟩⟩, some ⟨4, 2, ⟨4, 2⟩, ⟨5, 2⟩, ⟨3, 2⟩, ⟨4, 2⟩⟩,
        ⟨2, 4, ⟨4, 5, 3, 4⟩, 1, 200⟩⟩ : UpdateState).rating.student = 1 := ⟨rfl, rfl⟩
  have h2 : ¬ ((((3600000 : ℤ) -
      (⟨⟨7, 1, 0, 4, ⟨4, 5, 3, 4⟩⟩, some ⟨4, 2, ⟨4, 2⟩, ⟨5, 2⟩, ⟨3, 2⟩, ⟨4, 2⟩⟩,
        ⟨2, 4, ⟨4, 5, 3, 4⟩, 1, 200⟩⟩ : UpdateState).rating.createdAtMs : ℤ) : ℚ) /
      (1000 * 60 * 60) > 24) := by
    norm_num
  exact ⟨h1, h2, updateRating_preserves_dailyMenu 3600000 1 7 _ _ h1 h2⟩

/-! ## The submitRating pipeline
(middleware/timeRestriction.js and rating.js lines 653-807) -/

/-- Meal types accepted by the Rating schema. -/
inductive MealType where
  | breakfast
  | lunch
  | dinner
  | snack
  deriving DecidableEq, Repr

/-- The meal time windows of `validateMealTime`
(timeRestriction.js lines 913-917); `snack` has no entry in the map. -/
def mealTimes : MealType → Option (ℚ × ℚ)
  | .breakfast => some (8, 11)
  | .lunch => some (12, 16)
  | .dinner => some (19, 23)
  | .snack => none

/-- Result of the `validateMealTime` middleware. -/
inductive TimeCheck where
  | invalidMealType
  | outsideWindow
  | ok
  deriving DecidableEq, Repr

/-- `validateMealTime` (timeRestriction.js lines 904-946):
`currentTime = hour + minute / 60`; reject unknown meal types, then reject
when `currentTime < start or currentTime > end`. -/
def validateMealTime (currentTime : ℚ) (mt : MealType) : TimeCheck :=
  match mealTimes mt with
  | none => .invalidMealType
  | some (s, e) => if currentTime < s ∨ currentTime > e then .outsideWindow else .ok

/-- A facility pointer stored on the user (`adminFacility` or
`selectedFacility`). -/
structure FacilityRef where
  facilityId : String
  facilityType : String
  deriving DecidableEq, Repr

/-- The authenticated principal `req.user` as read by `submitRating`. -/
structure ReqUser where
  id : ℕ
  adminFacility : Option FacilityRef
  selectedFacility : Option FacilityRef
  deriving DecidableEq, Repr

/-- The `messType` computation of `submitRating` (rating.js lines 676-679):
`req.user.adminFacility?.facilityType === "college" ? "college_mess" :
"hostel_mess"`. -/
def deriveMessType (u : ReqUser) : String :=
  match u.adminFacility with
  | some af => if af.facilityType = "college" then "college_mess" else "hostel_mess"
  | none => "hostel_mess"

/-- The compound uniqueness key of a Rating
(Rating.js index lines 217-228). -/
structure RatingKey where
  student : ℕ
  menuItem : ℕ
  mealDate : ℤ
  mealType : MealType
  deriving DecidableEq, Repr

/-- A persisted Rating document, restricted to the fields `submitRating`
derives. -/
structure StoredRating where
  key : RatingKey
  overallRating : ℚ
  categoryRatings : CategoryValues
  messType : String
  deriving DecidableEq, Repr

/-- The body of a rating submission request. -/
structure SubmitReq where
  menuItemId : ℕ
  overallRating : ℚ
  categoryRatings : CategoryValues
  mealType : MealType
  mealDate : ℤ
  deriving DecidableEq, Repr

/-- The documents a `submitRating` call can read or write. -/
structure SubmitDb where
  ratings : List StoredRating
  menuItem : Option MenuItemAgg
  dailyMenu : Option DailyMenuStats
  deriving DecidableEq, Repr

/-- `dailyMenuSchema.methods.updateParticipationRate`
(DailyMenu.js lines 678-684):
`participationRate = Math.round(totalRatings / expectedStudents * 100)` when
`expectedStudents > 0`. -/
def DailyMenuStats.updateParticipationRate (d : DailyMenuStats) : DailyMenuStats :=
  if 0 < d.expectedStudents then
    { d with participationRate :=
        ((jsRound ((d.totalRatings : ℚ) / (d.expectedStudents : ℚ) * 100) : ℤ) : ℚ) }
  else d

/-- The DailyMenu stats update of `submitRating` (rating.js lines 752-772):
`totalRatings += 1`, running-mean update of `averageRating` and each category
average, then `updateParticipationRate`. -/
def DailyMenuStats.addRating (d : DailyMenuStats) (overall : ℚ) (c : CategoryValues) :
    DailyMenuStats :=
  DailyMenuStats.updateParticipationRate
    { totalRatings := d.totalRatings + 1,
      averageRating :=
        (d.averageRating * (d.totalRatings : ℚ) + overall) / ((d.totalRatings : ℚ) + 1),
      categoryAverages :=
        ⟨(d.categoryAverages.taste * (d.totalRatings : ℚ) + c.taste) /
            ((d.totalRatings : ℚ) + 1),
          (d.categoryAverages.quantity * (d.totalRatings : ℚ) + c.quantity) /
            ((d.totalRatings : ℚ) + 1),
          (d.categoryAverages.freshness * (d.totalRatings : ℚ) + c.freshness) /
            ((d.totalRatings : ℚ) + 1),
          (d.categoryAverages.value * (d.totalRatings : ℚ) + c.value) /
            ((d.totalRatings : ℚ) + 1)⟩,
      participationRate := d.participationRate,
      expectedStudents := d.expectedStudents }

/-- Outcome of one submission request through the route
`validateMealTime → submitRating` (ratingRoutes.js lines 62-68). -/
inductive SubmitOutcome where
  | invalidMealType
  | outsideWindow
  | conflict
  | itemNotFound
  | menuNotFound
  | created
  deriving DecidableEq, Repr

/-- The submission pipeline: the `validateMealTime` middleware runs first
(route order, ratingRoutes.js lines 62-68), then `submitRating`
(rating.js lines 653-807): duplicate check on the compound key, existence
checks for MenuItem and DailyMenu, then persistence of the new Rating and the
two aggregate updates. Every rejection leaves the database unchanged. -/
def submitPipeline (currentTime : ℚ) (u : ReqUser) (req : SubmitReq)
    (db : SubmitDb) : SubmitOutcome × SubmitDb :=
  match validateMealTime currentTime req.mealType with
  | .invalidMealType => (.invalidMealType, db)
  | .outsideWindow => (.outsideWindow, db)
  | .ok =>
    if db.ratings.any
        (fun r => r.key = ⟨u.id, req.menuItemId, req.mealDate, req.mealType⟩) then
      (.conflict, db)
    else
      match db.menuItem, db.dailyMenu with
      | none, _ => (.itemNotFound, db)
      | some _, none => (.menuNotFound, db)
      | some mi, some dm =>
        (.created,
          ⟨db.ratings ++
            [⟨⟨u.id, req.menuItemId, req.mealDate, req.mealType⟩, req.overallRating,
              req.categoryRatings, deriveMessType u⟩],
            some (mi.updateRatings
              ⟨req.overallRating, some req.categoryRatings.taste,
                some req.categoryRatings.quantity, some req.categoryRatings.freshness,
                some req.categoryRatings.value⟩),
            some (dm.addRating req.overallRating req.categoryRatings)⟩)

/-- C4: submission error handling. The configured windows are breakfast
08:00-11:00, lunch 12:00-16:00, dinner 19:00-23:00; a request outside the
window for its meal type is rejected before any aggregation logic runs (the
database is unchanged); with the time check passed, a duplicate
(student, menuItem, mealDate, mealType) rating is a Conflict, a missing
MenuItem or DailyMenu is a NotFound, and otherwise the new rating is
persisted. -/
theorem submitRating_error_handling (t : ℚ) (u : ReqUser) (req : SubmitReq)
    (db : SubmitDb) :
    (mealTimes .breakfast = some (8, 11) ∧ mealTimes .lunch = some (12, 16) ∧
      mealTimes .dinner = some (19, 23)) ∧
    (∀ s e, mealTimes req.mealType = some (s, e) → (t < s ∨ t > e) →
      submitPipeline t u req db = (.outsideWindow, db)) ∧
    (validateMealTime t req.mealType = .ok →
      (db.ratings.any
          (fun r => r.key = ⟨u.id, req.menuItemId, req.mealDate, req.mealType⟩) = true →
        submitPipeline t u req db = (.conflict, db)) ∧
      (db.ratings.any
          (fun r => r.key = ⟨u.id, req.menuItemId, req.mealDate, req.mealType⟩) = false →
        (db.menuItem = none → submitPipeline t u req db = (.itemNotFound, db)) ∧
        (∀ mi, db.menuItem = some mi → db.dailyMenu = none →
          submitPipeline t u req db = (.menuNotFound, db)) ∧
        (∀ mi dm, db.menuItem = some mi → db.dailyMenu = some dm →
          submitPipeline t u req db =
            (.created,
              ⟨db.ratings ++
                [⟨⟨u.id, req.menuItemId, req.mealDate, req.mealType⟩,
                  req.overallRating, req.categoryRatings, deriveMessType u⟩],
                some (mi.updateRatings
                  ⟨req.overallRating, some req.categoryRatings.taste,
                    some req.categoryRatings.quantity,
                    some req.categoryRatings.freshness,
                    some req.categoryRatings.value⟩),
                some (dm.addRating req.overallRating req.categoryRatings)⟩)))) := by
  refine ⟨⟨rfl, rfl, rfl⟩, ?_, ?_⟩
  · intro s e hse ht
    have hv : validateMealTime t req.mealType = .outsideWindow := by
      simp [validateMealTime, hse, ht]
    simp [submitPipeline, hv]
  · intro hok
    refine ⟨?_, ?_⟩
    · intro hdup
      simp [submitPipeline, hok, hdup]
    · intro hdup
      refine ⟨?_, ?_, ?_⟩
      · intro hmi
        simp [submitPipeline, hok, hdup, hmi]
      · intro mi hmi hdm
        simp [submitPipeline, hok, hdup, hmi, hdm]
      · intro mi dm hmi hdm
        simp [submitPipeline, hok, hdup, hmi, hdm]

/-- Witness for C4: at 07:00 a breakfast submission is rejected as outside
the 08:00-11:00 window, with the database untouched. -/
theorem submitRating_error_handling_witness :
    mealTimes MealType.breakfast = some (8, 11) ∧
    ((7 : ℚ) < 8 ∨ (7 : ℚ) > 11) ∧
    submitPipeline 7 ⟨1, none, none⟩ ⟨5, 4, ⟨4, 4, 4, 4⟩, .breakfast, 0⟩
        ⟨[], none, none⟩ =
      (.outsideWindow, ⟨[], none, none⟩) := by
  have h1 : mealTimes MealType.breakfast = some (8, 11) := rfl
  have h2 : (7 : ℚ) < 8 ∨ (7 : ℚ) > 11 := Or.inl (by norm_num)
  exact ⟨h1, h2,
    (submitRating_error_handling 7 ⟨1, none, none⟩ ⟨5, 4, ⟨4, 4, 4, 4⟩, .breakfast, 0⟩
      ⟨[], none, none⟩).2.1 8 11 h1 h2⟩

/-- C10: in `submitRating` the persisted messType depends only on
`req.user.adminFacility`: any principal without a college `adminFacility`
(in particular every student, whose facility lives in `selectedFacility`)
gets `messType = "hostel_mess"`, whatever `selectedFacility` holds. -/
theorem submitRating_messType_ignores_selectedFacility (u : ReqUser)
    (h : ∀ af, u.adminFacility = some af → af.facilityType ≠ "college") :
    deriveMessType u = "hostel_mess" ∧
    (∀ sf, deriveMessType ⟨u.id, u.adminFacility, sf⟩ = deriveMessType u) ∧
    (∀ t req db db2, submitPipeline t u req db = (.created, db2) →
      db2.ratings = db.ratings ++
        [⟨⟨u.id, req.menuItemId, req.mealDate, req.mealType⟩, req.overallRating,
          req.categoryRatings, "hostel_mess"⟩]) := by
  have hmt : deriveMessType u = "hostel_mess" := by
    cases haf : u.adminFacility with
    | none => simp [deriveMessType, haf]
    | some af =>
      have := h af haf
      simp [deriveMessType, haf, this]
  refine ⟨hmt, ?_, ?_⟩
  · intro sf
    cases haf : u.adminFacility <;> simp [deriveMessType, haf]
  · intro t req db db2 hcr
    unfold submitPipeline at hcr
    cases hv : validateMealTime t req.mealType with
    | invalidMealType => simp [hv] at hcr
    | outsideWindow => simp [hv] at hcr
    | ok =>
      rw [hv] at hcr
      simp only at hcr
      by_cases hdup : db.ratings.any
          (fun r => r.key = ⟨u.id, req.menuItemId, req.mealDate, req.mealType⟩)
      · simp [hdup] at hcr
      · simp only [hdup, Bool.false_eq_true, if_false, if_neg] at hcr
        cases hmi : db.menuItem with
        | none => rw [hmi] at hcr; simp at hcr
        | some mi =>
          rw [hmi] at hcr
          cases hdm : db.dailyMenu with
          | none => rw [hdm] at hcr; simp at hcr
          | some dm =>
            rw [hdm] at hcr
            simp only [Prod.mk.injEq] at hcr
            rw [← hcr.2, hmt]

/-- Witness for C10: a student with a college `selectedFacility` and no
`adminFacility` still gets `messType = "hostel_mess"`. -/
theorem submitRating_messType_ignores_selectedFacility_witness :
    (∀ af, (⟨1, none, some ⟨"f1", "college"⟩⟩ : ReqUser).adminFacility = some af →
      af.facilityType ≠ "college") ∧
    deriveMessType ⟨1, none, some ⟨"f1", "college"⟩⟩ = "hostel_mess" := by
  have h : ∀ af, (⟨1, none, some ⟨"f1", "college"⟩⟩ : ReqUser).adminFacility = some af →
      af.facilityType ≠ "college" := by
    intro af haf
    simp at haf
  exact ⟨h, (submitRating_messType_ignores_selectedFacility _ h).1⟩

/-! ## Helpfulness voting
(Rating.js lines 267-290 and rating.js lines 999-1048) -/

/-- A vote value, `'up'` or `'down'`. -/
inductive VoteType where
  | up
  | down
  deriving DecidableEq, Repr

/-- One entry of the `helpfulVotes.voters` ledger. -/
structure VoterEntry where
  user : ℕ
  vote : VoteType
  deriving DecidableEq, Repr

/-- The `helpfulVotes` subdocument of a Rating. -/
structure HelpfulVotes where
  upvotes : ℕ
  downvotes : ℕ
  voters : List VoterEntry
  deriving DecidableEq, Repr

/-- A Rating document as seen by `voteOnRating`. -/
structure RatingVoteDoc where
  student : ℕ
  helpfulVotes : HelpfulVotes
  deriving DecidableEq, Repr

/-- `ratingSchema.methods.addHelpfulVote` (Rating.js lines 267-290): remove
every prior entry of this user from the ledger, append the new vote, then
recompute `upvotes` / `downvotes` as counts over the full ledger. -/
def HelpfulVotes.addHelpfulVote (hv : HelpfulVotes) (userId : ℕ) (voteType : VoteType) :
    HelpfulVotes :=
  let voters := hv.voters.filter (fun v => v.user != userId) ++ [⟨userId, voteType⟩]
  { upvotes := (voters.filter (fun v => v.vote == .up)).length,
    downvotes := (voters.filter (fun v => v.vote == .down)).length,
    voters := voters }

/-- Outcome of one `voteOnRating` call. -/
inductive VoteOutcome where
  | notFound
  | ownRating
  | voted (r : RatingVoteDoc)
  deriving DecidableEq, Repr

/-- `voteOnRating` (rating.js lines 999-1048): the vote type has been
validated; reject a missing rating (404) and a vote on the caller's own
rating (400), otherwise apply `addHelpfulVote` and save. -/
def voteOnRating (rating : Option RatingVoteDoc) (userId : ℕ) (voteType : VoteType) :
    VoteOutcome :=
  match rating with
  | none => .notFound
  | some r =>
    if r.student = userId then .ownRating
    else .voted { r with helpfulVotes := r.helpfulVotes.addHelpfulVote userId voteType }

/-- A sequence of `voteOnRating` calls by one user on one rating (a rejected
call leaves the document unchanged). -/
def applyVotes (r : RatingVoteDoc) (userId : ℕ) (votes : List VoteType) : RatingVoteDoc :=
  votes.foldl
    (fun acc vt =>
      match voteOnRating (some acc) userId vt with
      | .voted acc2 => acc2
      | _ => acc) r

lemma addHelpfulVote_filter_self (hv : HelpfulVotes) (u : ℕ) (vt : VoteType) :
    ((hv.addHelpfulVote u vt).voters.filter (fun v => v.user == u)) = [⟨u, vt⟩] := by
  simp only [HelpfulVotes.addHelpfulVote, List.filter_append]
  have hnil : (hv.voters.filter (fun v => v.user != u)).filter (fun v => v.user == u) = [] := by
    rw [List.filter_filter]
    apply List.filter_eq_nil_iff.mpr
    intro a ha
    simp [bne]
  rw [hnil]
  simp

lemma applyVotes_student (r : RatingVoteDoc) (u : ℕ) (votes : List VoteType) :
    (applyVotes r u votes).student = r.student := by
  induction votes generalizing r with
  | nil => rfl
  | cons vt votes ih =>
    simp only [applyVotes, List.foldl_cons] at *
    rw [ih]
    unfold voteOnRating
    by_cases hs : r.student = u <;> simp [hs]

lemma applyVotes_append_last (r : RatingVoteDoc) (u : ℕ) (votes : List VoteType)
    (vt : VoteType) (hown : r.student ≠ u) :
    applyVotes r u (votes ++ [vt]) =
      { applyVotes r u votes with
        helpfulVotes := (applyVotes r u votes).helpfulVotes.addHelpfulVote u vt } := by
  have hst : (applyVotes r u votes).student ≠ u := by
    rw [applyVotes_student]
    exact hown
  have hstep : voteOnRating (some (applyVotes r u votes)) u vt =
      .voted { applyVotes r u votes with
        helpfulVotes := (applyVotes r u votes).helpfulVotes.addHelpfulVote u vt } := by
    simp [voteOnRating, hst]
  unfold applyVotes at hstep ⊢
  rw [List.foldl_append]
  simp only [List.foldl_cons, List.foldl_nil]
  rw [hstep]

/-- C5: after any non-empty sequence of `voteOnRating` calls by one user on a
rating they do not own, the voter ledger holds exactly one vote by that user
(the latest), and `upvotes` / `downvotes` equal the counts of up and down
entries over the full current ledger; a `voteOnRating` call by the rating's
own author is rejected. -/
theorem voteOnRating_ledger (r : RatingVoteDoc) (userId : ℕ) (init : List VoteType)
    (vlast : VoteType) (votes : List VoteType)
    (hown : r.student ≠ userId) (hsplit : votes = init ++ [vlast]) :
    ((applyVotes r userId votes).helpfulVotes.voters.filter
        (fun v => v.user == userId)) = [⟨userId, vlast⟩] ∧
    (applyVotes r userId votes).helpfulVotes.upvotes =
      ((applyVotes r userId votes).helpfulVotes.voters.filter
        (fun v => v.vote == .up)).length ∧
    (applyVotes r userId votes).helpfulVotes.downvotes =
      ((applyVotes r userId votes).helpfulVotes.voters.filter
        (fun v => v.vote == .down)).length ∧
    (∀ vt, voteOnRating (some r) r.student vt = .ownRating) := by
  subst hsplit
  rw [applyVotes_append_last r userId init vlast hown]
  refine ⟨addHelpfulVote_filter_self _ _ _, rfl, rfl, ?_⟩
  intro vt
  simp [voteOnRating]

/-- Witness for C5: user 2 votes up, down, then up again on a rating owned by
user 1; only the final up vote is counted. -/
theorem voteOnRating_ledger_witness :
    ((⟨1, ⟨0, 0, []⟩⟩ : RatingVoteDoc).student ≠ 2) ∧
    ([VoteType.up, VoteType.down, VoteType.up] =
      [VoteType.up, VoteType.down] ++ [VoteType.up]) ∧
    (((applyVotes ⟨1, ⟨0, 0, []⟩⟩ 2 [VoteType.up, VoteType.down, VoteType.up]).helpfulVotes.voters.filter
        (fun v => v.user == 2)) = [⟨2, VoteType.up⟩] ∧
    (applyVotes ⟨1, ⟨0, 0, []⟩⟩ 2 [VoteType.up, VoteType.down, VoteType.up]).helpfulVotes.upvotes =
      ((applyVotes ⟨1, ⟨0, 0, []⟩⟩ 2 [VoteType.up, VoteType.down, VoteType.up]).helpfulVotes.voters.filter
        (fun v => v.vote == VoteType.up)).length ∧
    (applyVotes ⟨1, ⟨0, 0, []⟩⟩ 2 [VoteType.up, VoteType.down, VoteType.up]).helpfulVotes.downvotes =
      ((applyVotes ⟨1, ⟨0, 0, []⟩⟩ 2 [VoteType.up, VoteType.down, VoteType.up]).helpfulVotes.voters.filter
        (fun v => v.vote == VoteType.down)).length ∧
    (∀ vt, voteOnRating (some ⟨1, ⟨0, 0, []⟩⟩)
        (⟨1, ⟨0, 0, []⟩⟩ : RatingVoteDoc).student vt = .ownRating)) := by
  have h1 : (⟨1, ⟨0, 0, []⟩⟩ : RatingVoteDoc).student ≠ 2 := by decide
  have h2 : [VoteType.up, VoteType.down, VoteType.up] =
      [VoteType.up, VoteType.down] ++ [VoteType.up] := rfl
  exact ⟨h1, h2, voteOnRating_ledger ⟨1, ⟨0, 0, []⟩⟩ 2 [VoteType.up, VoteType.down]
    VoteType.up [VoteType.up, VoteType.down, VoteType.up] h1 h2⟩

/-! ## Publishing a daily menu (menu.js lines 441-490) -/

/-- The DailyMenu status enumeration (DailyMenu.js lines 448-452). -/
inductive MenuStatus where
  | draft
  | published
  | active
  | completed
  | cancelled
  deriving DecidableEq, Repr

/-- A DailyMenu document as seen by `publishDailyMenu`: its status and the
ids of its item entries. -/
structure DailyMenuDoc where
  status : MenuStatus
  menuItems : List ℕ
  deriving DecidableEq, Repr

/-- Outcome of one `publishDailyMenu` call. -/
inductive PublishOutcome where
  | notFound
  | alreadyPublished
  | noItems
  | published (m : DailyMenuDoc)
  deriving DecidableEq, Repr

/-- `publishDailyMenu` (menu.js lines 441-490): 404 when the menu is absent;
400 when `status` is `published` or `active`; 400 when `menuItems.length` is
0; otherwise set `status = "published"` and save. -/
def publishDailyMenu (menu : Option DailyMenuDoc) : PublishOutcome :=
  match menu with
  | none => .notFound
  | some m =>
    if m.status = .published ∨ m.status = .active then .alreadyPublished
    else if m.menuItems.length = 0 then .noItems
    else .published { m with status := .published }

/-- C6 counterexample: the claim says publishing succeeds exactly when the
current status is `draft`, but `publishDailyMenu` only rejects `published`
and `active`: a `completed` menu with one item is republished successfully,
so success is not equivalent to the status being `draft`. -/
theorem publishDailyMenu_accepts_completed :
    publishDailyMenu (some ⟨.completed, [1]⟩) =
      .published ⟨.published, [1]⟩ ∧
    MenuStatus.completed ≠ MenuStatus.draft := by
  refine ⟨?_, by decide⟩
  rfl

/-- C6 amended: `publishDailyMenu` succeeds and transitions the menu to
`published` exactly when the menu exists, its status is neither `published`
nor `active`, and its item list is non-empty; a menu with zero items is
rejected, and an already-published or active menu is rejected as
InvalidState. (The code does not restrict the source status to `draft`:
`completed` and `cancelled` menus can also be published.) -/
theorem publishDailyMenu_spec (m : DailyMenuDoc) :
    ((∃ m2, publishDailyMenu (some m) = .published m2) ↔
      (m.status ≠ .published ∧ m.status ≠ .active ∧ m.menuItems ≠ [])) ∧
    (∀ m2, publishDailyMenu (some m) = .published m2 →
      m2 = { m with status := .published }) ∧
    ((m.status = .published ∨ m.status = .active) →
      publishDailyMenu (some m) = .alreadyPublished) ∧
    (m.status ≠ .published → m.status ≠ .active → m.menuItems = [] →
      publishDailyMenu (some m) = .noItems) ∧
    publishDailyMenu none = .notFound := by
  refine ⟨⟨?_, ?_⟩, ?_, ?_, ?_, rfl⟩
  · rintro ⟨m2, hm2⟩
    by_cases hs : m.status = .published ∨ m.status = .active
    · simp [publishDailyMenu, hs] at hm2
    · by_cases hn : m.menuItems.length = 0
      · simp [publishDailyMenu, hs, hn] at hm2
      · push_neg at hs
        refine ⟨hs.1, hs.2, ?_⟩
        intro hnil
        exact hn (by simp [hnil])
  · rintro ⟨h1, h2, h3⟩
    refine ⟨{ m with status := .published }, ?_⟩
    have hs : ¬ (m.status = .published ∨ m.status = .active) := by
      rintro (hc | hc)
      · exact h1 hc
      · exact h2 hc
    have hn : ¬ m.menuItems.length = 0 := by
      simpa [List.length_eq_zero] using h3
    simp [publishDailyMenu, hs, hn]
  · intro m2 hm2
    by_cases hs : m.status = .published ∨ m.status = .active
    · simp [publishDailyMenu, hs] at hm2
    · by_cases hn : m.menuItems.length = 0
      · simp [publishDailyMenu, hs, hn] at hm2
      · simp [publishDailyMenu, hs, hn] at hm2
        exact hm2.symm
  · intro hs
    simp [publishDailyMenu, hs]
  · intro h1 h2 hnil
    have hs : ¬ (m.status = .published ∨ m.status = .active) := by
      rintro (hc | hc)
      · exact h1 hc
      · exact h2 hc
    simp [publishDailyMenu, hs, hnil]

/-- Witness for the amended C6: a draft menu with one item publishes. -/
theorem publishDailyMenu_spec_witness :
    ((∃ m2, publishDailyMenu (some ⟨.draft, [3]⟩) = .published m2) ↔
      ((⟨.draft, [3]⟩ : DailyMenuDoc).status ≠ .published ∧
        (⟨.draft, [3]⟩ : DailyMenuDoc).status ≠ .active ∧
        (⟨.draft, [3]⟩ : DailyMenuDoc).menuItems ≠ [])) ∧
    ((⟨.draft, [3]⟩ : DailyMenuDoc).status ≠ .published ∧
      (⟨.draft, [3]⟩ : DailyMenuDoc).status ≠ .active ∧
      (⟨.draft, [3]⟩ : DailyMenuDoc).menuItems ≠ []) ∧
    (∃ m2, publishDailyMenu (some ⟨.draft, [3]⟩) = .published m2) := by
  have hiff := (publishDailyMenu_spec ⟨.draft, [3]⟩).1
  have hpre : (⟨.draft, [3]⟩ : DailyMenuDoc).status ≠ .published ∧
      (⟨.draft, [3]⟩ : DailyMenuDoc).status ≠ .active ∧
      (⟨.draft, [3]⟩ : DailyMenuDoc).menuItems ≠ [] := by
    refine ⟨by decide, by decide, by decide⟩
  exact ⟨hiff, hpre, hiff.mpr hpre⟩

/-! ## Facility directory (models/Facility.js, controllers/facility.js) -/

/-- One embedded mess record (Facility.js schema lines 29-68). -/
structure MessRec where
  name : String
  messId : String
  isActive : Bool
  deriving DecidableEq, Repr

/-- A Facility document: globally unique name and an embedded mess list. -/
structure FacilityDoc where
  name : String
  messes : List MessRec
  deriving DecidableEq, Repr

/-- JS `toLowerCase`, applied character by character (adequate for the
ASCII names used here). -/
def jsToLowerCase (s : String) : String := ⟨s.toList.map Char.toLower⟩

/-- Whitespace-run collapsing of the JS `replace(/\s+/g, "_")`: each maximal
run of whitespace becomes one underscore (the Bool argument tracks whether
the previous character was whitespace). -/
def collapseWsAux : Bool → List Char → List Char
  | _, [] => []
  | prevWs, c :: rest =>
    if c.isWhitespace then
      (if prevWs then [] else ['_']) ++ collapseWsAux true rest
    else c :: collapseWsAux false rest

/-- `s.toLowerCase().replace(/\s+/g, "_")` as used for mess id generation. -/
def slug (s : String) : String := ⟨collapseWsAux false (jsToLowerCase s).toList⟩

/-- The mess id generated by `facilitySchema.methods.addMess`
(Facility.js lines 98-102): lower-cased, whitespace-collapsed facility and
mess names joined with the current epoch milliseconds. -/
def genMessId (facilityName messName : String) (nowMs : ℕ) : String :=
  slug facilityName ++ "_" ++ slug messName ++ "_" ++ toString nowMs

/-- `facilitySchema.methods.addMess` (Facility.js lines 97-121): generate the
mess id, reject when an active mess of this facility has the same name
case-insensitively, otherwise append the new mess (active by schema default)
and return the id. -/
def FacilityDoc.addMess (f : FacilityDoc) (messName : String) (nowMs : ℕ) :
    Except String (FacilityDoc × String) :=
  let messId := genMessId f.name messName nowMs
  if f.messes.any (fun m => jsToLowerCase m.name == jsToLowerCase messName && m.isActive) then
    .error "Mess with this name already exists in this facility"
  else
    .ok ({ f with messes := f.messes ++ [⟨messName, messId, true⟩] }, messId)

/-- C7: `addMess` fails with Conflict exactly when an active mess of the same
facility carries a case-insensitively equal name; on any facility without
such a mess (in particular a different facility), it appends a new active
mess with a freshly generated id `slug(facilityName)_slug(messName)_<nowMs>`
and succeeds. -/
theorem addMess_conflict_iff (f : FacilityDoc) (messName : String) (nowMs : ℕ) :
    ((∃ e, f.addMess messName nowMs = .error e) ↔
      ∃ m ∈ f.messes, m.isActive = true ∧ jsToLowerCase m.name = jsToLowerCase messName) ∧
    ((∀ m ∈ f.messes, m.isActive = true → jsToLowerCase m.name ≠ jsToLowerCase messName) →
      f.addMess messName nowMs =
        .ok ({ f with messes :=
            f.messes ++ [⟨messName, genMessId f.name messName nowMs, true⟩] },
          genMessId f.name messName nowMs)) := by
  constructor
  · constructor
    · rintro ⟨e, he⟩
      by_cases hany : f.messes.any
          (fun m => jsToLowerCase m.name == jsToLowerCase messName && m.isActive)
      · obtain ⟨m, hm, hprop⟩ := List.any_eq_true.mp hany
        simp only [Bool.and_eq_true, beq_iff_eq] at hprop
        exact ⟨m, hm, hprop.2, hprop.1⟩
      · simp [FacilityDoc.addMess, hany] at he
    · rintro ⟨m, hm, hact, hname⟩
      have hany : f.messes.any
          (fun m => jsToLowerCase m.name == jsToLowerCase messName && m.isActive) = true := by
        refine List.any_eq_true.mpr ⟨m, hm, ?_⟩
        simp [hname, hact]
      exact ⟨"Mess with this name already exists in this facility",
        by simp [FacilityDoc.addMess, hany]⟩
  · intro hnone
    have hany : f.messes.any
        (fun m => jsToLowerCase m.name == jsToLowerCase messName && m.isActive) = false := by
      rw [List.any_eq_false]
      intro m hm
      simp only [Bool.and_eq_true, beq_iff_eq, not_and]
      intro hname hact
      exact hnone m hm hact hname
    simp [FacilityDoc.addMess, hany]

/-- Witness for C7: facility "SJ Hall" already has an active "Main Mess", so
adding "MAIN MESS" conflicts; the distinct facility "North Campus" with no
such mess accepts it. -/
theorem addMess_conflict_iff_witness :
    (∃ m ∈ (⟨"SJ Hall", [⟨"Main Mess", "sj_hall_main_mess_1", true⟩]⟩ :
        FacilityDoc).messes,
      m.isActive = true ∧ jsToLowerCase m.name = jsToLowerCase "MAIN MESS") ∧
    (∃ e, (⟨"SJ Hall", [⟨"Main Mess", "sj_hall_main_mess_1", true⟩]⟩ :
        FacilityDoc).addMess "MAIN MESS" 2 = .error e) ∧
    (∀ m ∈ (⟨"North Campus", []⟩ : FacilityDoc).messes,
      m.isActive = true → jsToLowerCase m.name ≠ jsToLowerCase "MAIN MESS") ∧
    (⟨"North Campus", []⟩ : FacilityDoc).addMess "MAIN MESS" 2 =
      .ok (⟨"North Campus",
          [⟨"MAIN MESS", genMessId "North Campus" "MAIN MESS" 2, true⟩]⟩,
        genMessId "North Campus" "MAIN MESS" 2) := by
  have hex : ∃ m ∈ (⟨"SJ Hall", [⟨"Main Mess", "sj_hall_main_mess_1", true⟩]⟩ :
      FacilityDoc).messes,
      m.isActive = true ∧ jsToLowerCase m.name = jsToLowerCase "MAIN MESS" := by
    refine ⟨⟨"Main Mess", "sj_hall_main_mess_1", true⟩, by simp, rfl, by decide⟩
  have hnone : ∀ m ∈ (⟨"North Campus", []⟩ : FacilityDoc).messes,
      m.isActive = true → jsToLowerCase m.name ≠ jsToLowerCase "MAIN MESS" := by
    intro m hm
    simp at hm
  refine ⟨hex, ?_, hnone, ?_⟩
  · exact (addMess_conflict_iff
      ⟨"SJ Hall", [⟨"Main Mess", "sj_hall_main_mess_1", true⟩]⟩ "MAIN MESS" 2).1.mpr hex
  · exact (addMess_conflict_iff ⟨"North Campus", []⟩ "MAIN MESS" 2).2 hnone

/-- The initial-mess object built by `createFacility`
(facility.js lines 90-102): name, description, capacity, operating hours and
`isActive: true` - and no `messId` field at all. -/
structure MessInsert where
  name : String
  messId : Option String
  isActive : Bool
  deriving DecidableEq, Repr

/-- Mongoose validation run by `Facility.create` over the embedded mess list:
`messId` is a required path of the mess subdocument schema
(Facility.js lines 37-42), so validation passes only when every mess carries
one. -/
def facilityCreateValidate (messes : List MessInsert) : Bool :=
  messes.all (fun m => m.messId.isSome)

/-- `Facility.create`: document construction guarded by schema validation. -/
def facilityCreate (name : String) (messes : List MessInsert) :
    Except String FacilityDoc :=
  if facilityCreateValidate messes then
    .ok ⟨name, messes.map (fun m => ⟨m.name, m.messId.getD "", m.isActive⟩)⟩
  else .error "Facility validation failed: messId is required"

/-- Outcome of one `createFacility` call. -/
inductive CreateFacilityOutcome where
  | conflict
  | created (f : FacilityDoc)
  | serverError
  deriving DecidableEq, Repr

/-- `createFacility` (facility.js lines 71-126): reject when a facility with
the exact (case-sensitive) same name exists (`findOne({ name })`), otherwise
call `Facility.create` with one initial mess built without a `messId`; the
resulting validation error is caught and answered as the 500
"Could not create facility" response. -/
def createFacility (db : List FacilityDoc) (name messName : String) :
    CreateFacilityOutcome :=
  if db.any (fun f => f.name == name) then .conflict
  else
    match facilityCreate name [⟨messName, none, true⟩] with
    | .ok f => .created f
    | .error _ => .serverError

/-- C8 describes intended behavior the code cannot deliver: the Conflict
branch works (exact case-sensitive name match), but on a fresh name
`createFacility` builds the initial mess without any `messId`, the schema
declares `messId` required, so `Facility.create` always fails validation and
the handler returns a 500: no facility with a generated
`slug(facilityName)_slug(messName)_<suffix>` mess id is ever created by this
endpoint. -/
theorem createFacility_never_creates :
    createFacility [] "SJ Hall" "Main Mess" = .serverError ∧
    createFacility [⟨"SJ Hall", []⟩] "SJ Hall" "Main Mess" = .conflict ∧
    createFacility [⟨"sj hall", []⟩] "SJ Hall" "Main Mess" = .serverError ∧
    (∀ db name messName,
      createFacility db name messName = .conflict ∨
      createFacility db name messName = .serverError) := by
  refine ⟨rfl, by decide, by decide, ?_⟩
  intro db name messName
  by_cases hany : db.any (fun f => f.name == name)
  · exact Or.inl (by simp [createFacility, hany])
  · exact Or.inr (by simp [createFacility, hany, facilityCreate, facilityCreateValidate])

end MessMeter
